import Mathlib

/-!
Verification of the PollBotSH Telegram bot (`src/main.py`) against its
natural-language specification.

The Python program is shallowly embedded: JSON-ish values become the
inductive `Value`, Python dicts become association lists (`Record`),
fallible dictionary indexing (`s["k"]`, which raises `KeyError`) is
modelled with `Option`, and the stateful parts (the schedule store file,
the APScheduler job set, the aiogram FSM session) are modelled as explicit
state that handler functions transform.  An operation that would raise an
uncaught exception in Python is modelled as returning `none`.
-/

namespace PollBot

/-- JSON-ish values stored in the schedule configuration and in the
aiogram FSM data dict.  The program only ever stores strings, integers
and lists of strings in these dicts. -/
inductive Value where
  | str : String → Value
  | int : Int → Value
  | strList : List String → Value
deriving DecidableEq, Repr

/-- A Python dict with string keys, as an association list (keys are kept
unique by construction of every dict the program builds). -/
abbrev Record := List (String × Value)

/-- `d.get(k)` / `d[k]`: first binding of key `k`.  Python's `d[k]` raises
`KeyError` when the key is missing; callers model that by matching on
`none`. -/
def dictGet (r : Record) (k : String) : Option Value :=
  (r.find? (fun p => decide (p.fst = k))).map Prod.snd

/-- `d[k]` when the program needs the value to be an `int` (it is used in
integer arithmetic or `{:02d}` formatting, which raise `TypeError`
otherwise). -/
def getIntVal (r : Record) (k : String) : Option Int :=
  match dictGet r k with
  | some (.int n) => some n
  | _ => none

/-- Python truthiness of a `Value` (`bool(v)`). -/
def Value.truthy : Value → Bool
  | .str s => !s.isEmpty
  | .int n => decide (n ≠ 0)
  | .strList l => !l.isEmpty

/-- Python `a or b` on two optional values: `a` if it is present and
truthy, otherwise `b`.  Used for `s.get("options") or s.get("extra_options")`. -/
def pyOr (a b : Option Value) : Option Value :=
  match a with
  | some v => if v.truthy then some v else b
  | none => b

/-- String interpolation `f"{v}"` of a stored value.  For strings and
integers this is exact Python behaviour; for a list (never used as an id
or day by the program) Python would print `repr`, whose element quoting
is omitted here. -/
def Value.fmt : Value → String
  | .str s => s
  | .int n => toString n
  | .strList l => "[" ++ String.intercalate ", " l ++ "]"

/-- Python dict insertion `d[k] = v`: overwrite in place if the key
exists, else append (insertion order is preserved, as in Python). -/
def dictInsert (d : Record) (k : String) (v : Value) : Record :=
  if d.any (fun p => decide (p.fst = k)) then
    d.map (fun p => if p.fst = k then (k, v) else p)
  else d ++ [(k, v)]

/-- Python `{**d, **e}` merging: insert every binding of `e` into `d` in
order. -/
def dictMerge (d e : Record) : Record :=
  e.foldl (fun acc p => dictInsert acc p.fst p.snd) d

/-- The parsed contents of `schedule_config.json`:
`{"schedules": [...]}`. -/
structure Config where
  schedules : List Record
deriving DecidableEq, Repr

/-- `EMPTY_CONFIG = {"schedules": []}`. -/
def EMPTY_CONFIG : Config := ⟨[]⟩

/-- Condition of the backing storage file read by `load_config`:
the file may be missing, unreadable (`OSError`), hold content the JSON
decoder rejects (`json.JSONDecodeError`), or hold a decodable
configuration. -/
inductive Backing where
  | missing
  | osError
  | decodeError
  | content (cfg : Config)
deriving DecidableEq, Repr

/-- `load_config()`: return the parsed file; on a missing file, an
`OSError` or a `JSONDecodeError` return `EMPTY_CONFIG` (the error is
logged as a warning, not raised). -/
def load_config : Backing → Config
  | .missing => EMPTY_CONFIG
  | .osError => EMPTY_CONFIG
  | .decodeError => EMPTY_CONFIG
  | .content cfg => cfg

/-- `calculate_reminder(hour, minute)`:
`(hour - (minute < 5)) % 24, (minute - 5) % 60` — Python `%` on a
positive modulus agrees with `Int.emod`. -/
def calculate_reminder (hour minute : Int) : Int × Int :=
  ((hour - (if minute < 5 then 1 else 0)) % 24, (minute - 5) % 60)

/-- The dispatch action a scheduled job fires (`send_squash_poll` with
its `args`, or `send_reminder`). -/
inductive JobAction where
  | sendPoll (day_name : Value) (options : Option Value) (poll_title : Option Value)
  | sendReminder
deriving DecidableEq, Repr

/-- One APScheduler cron job: its id, its weekly cron fire-time
(`day_of_week`, `hour`, `minute`) and the action it invokes. -/
structure Job where
  jid : String
  day_of_week : Value
  hour : Value
  minute : Value
  action : JobAction
deriving DecidableEq, Repr

/-- `scheduler.add_job(..., id=jid, replace_existing=True)`: replace the
job with the same id if present, else append. -/
def add_job (jobs : List Job) (j : Job) : List Job :=
  if jobs.any (fun x => decide (x.jid = j.jid)) then
    jobs.map (fun x => if x.jid = j.jid then j else x)
  else jobs ++ [j]

/-- The two jobs `setup_scheduler` adds for one schedule record `s`.
Returns `none` when the Python loop body would raise: a `KeyError` on
`s["send_day"]`, `s["hour"]`, `s["minute"]`, `s["poll_day"]` or
`s["id"]`, or a `TypeError` in `calculate_reminder` when hour/minute are
not integers. -/
def recordJobs (s : Record) : Option (Job × Job) := do
  let poll_options := pyOr (dictGet s "options") (dictGet s "extra_options")
  let poll_title := dictGet s "poll_title"
  let send_day ← dictGet s "send_day"
  let h ← getIntVal s "hour"
  let m ← getIntVal s "minute"
  let poll_day ← dictGet s "poll_day"
  let sid ← dictGet s "id"
  let pollJob : Job :=
    ⟨"poll_" ++ sid.fmt, send_day, .int h, .int m,
     .sendPoll poll_day poll_options poll_title⟩
  let rp := calculate_reminder h m
  let remJob : Job :=
    ⟨"rem_" ++ sid.fmt, send_day, .int rp.1, .int rp.2, .sendReminder⟩
  some (pollJob, remJob)

/-- The `for s in cfg["schedules"]` loop of `setup_scheduler`, threading
the scheduler's job list. -/
def schedLoop : List Record → List Job → Option (List Job)
  | [], jobs => some jobs
  | s :: rest, jobs =>
    match recordJobs s with
    | none => none
    | some (j1, j2) => schedLoop rest (add_job (add_job jobs j1) j2)

/-- `setup_scheduler()`: remove every existing job
(`scheduler.remove_all_jobs()`, so the previous job list is discarded),
reload the configuration from the backing storage, and add the two jobs
per record. -/
def setup_scheduler (_prevJobs : List Job) (backing : Backing) : Option (List Job) :=
  schedLoop (load_config backing).schedules []

/-- The comprehension
`[s for s in cfg["schedules"] if s["id"] != schedule_id]`; `none` when a
record lacks an `"id"` key (Python `KeyError`). -/
def filterOutId (schedule_id : String) : List Record → Option (List Record)
  | [] => some []
  | s :: rest => do
    let v ← dictGet s "id"
    let tail ← filterOutId schedule_id rest
    if v = Value.str schedule_id then pure tail else pure (s :: tail)

/-- `update_config(schedule_id, data)`: reload the configuration, drop
any record whose id equals `schedule_id`, append `data` if it is truthy
(`if data:` — `None` and the empty dict are falsy), save the file
(modelled by the new `Backing.content`), and rebuild the scheduler. -/
def update_config (schedule_id : String) (data : Option Record)
    (backing : Backing) (jobs : List Job) : Option (Backing × List Job) := do
  let cfg := load_config backing
  let filtered ← filterOutId schedule_id cfg.schedules
  let schedules :=
    match data with
    | some r => if r.isEmpty then filtered else filtered ++ [r]
    | none => filtered
  let newBacking := Backing.content ⟨schedules⟩
  let newJobs ← setup_scheduler jobs newBacking
  pure (newBacking, newJobs)

/-- `send_squash_poll`'s observable outcome: `.skipped` is the guarded
branch (a warning is logged and no poll is sent), `.sent` is the
`bot.send_poll(chat_id=GROUP_ID, question=..., options=..., is_anonymous=False)`
call. -/
inductive PollSend where
  | skipped
  | sent (chat_id : Int) (question : String) (options : List String) (is_anonymous : Bool)
deriving DecidableEq, Repr

/-- The generated fallback question `f"📊 Сквош в {day_name}?"`. -/
def squash_fallback (day_name : String) : String :=
  "📊 Сквош в " ++ day_name ++ "?"

/-- `send_squash_poll(day_name, options, poll_title)`: skip (log a
warning) when `options` is `None` or has fewer than 2 entries
(`if not options or len(options) < 2`); otherwise send a non-anonymous
poll with `question = poll_title or fallback` (Python truthiness: an
empty-string title also falls back). -/
def send_squash_poll (group_id : Int) (day_name : String)
    (options : Option (List String)) (poll_title : Option String) : PollSend :=
  match options with
  | none => .skipped
  | some opts =>
    if opts.length < 2 then .skipped
    else
      .sent group_id
        (match poll_title with
         | some t => if t = "" then squash_fallback day_name else t
         | none => squash_fallback day_name)
        opts false

/-- The fixed denial text of `AccessMiddleware`. -/
def ACCESS_DENIED_TEXT : String := "❌ У вас нет доступа к этому боту."

/-- Outcome of `AccessMiddleware.__call__`: either the event is answered
with a denial message and the handler is never invoked (so no store,
session or scheduler mutation can happen), or the wrapped handler runs. -/
inductive MwResult where
  | denied (msg : String)
  | handled
deriving DecidableEq, Repr

/-- `AccessMiddleware.__call__`:
`user_id = getattr(event.from_user, "id", None)`;
`if user_id and user_id not in ALLOWED_USER_IDS:` answer with the denial
message and return, else call the handler.  Python truthiness of an
integer makes the guard require `user_id` to be both present and
nonzero. -/
def access_middleware (from_user_id : Option Int) (allowed : List Int) : MwResult :=
  match from_user_id with
  | none => .handled
  | some uid =>
    if uid ≠ 0 ∧ uid ∉ allowed then .denied ACCESS_DENIED_TEXT else .handled

/-- `DAY_NAMES`. -/
def DAY_NAMES : List (String × String) :=
  [("mon", "Понедельник"), ("tue", "Вторник"), ("wed", "Среда"),
   ("thu", "Четверг"), ("fri", "Пятница"), ("sat", "Суббота"), ("sun", "Воскресенье")]

/-- `DAY_NAMES.get(k)`. -/
def dayName (k : String) : Option String :=
  (DAY_NAMES.find? (fun p => decide (p.fst = k))).map Prod.snd

/-- Python `str.strip()` on the underlying character list: drop
whitespace from both ends. -/
def trimChars (l : List Char) : List Char :=
  ((l.dropWhile Char.isWhitespace).reverse.dropWhile Char.isWhitespace).reverse

/-- Python `s.strip()`. -/
def pyStrip (s : String) : String := ⟨trimChars s.data⟩

/-- Python `s.split(";")` on the underlying character list:
`"".split(";") == [""]`, separators are not kept, empty pieces are
kept. -/
def splitSemiChars : List Char → List (List Char)
  | [] => [[]]
  | c :: rest =>
    match splitSemiChars rest with
    | [] => [[c]]
    | h :: t => if c = ';' then [] :: h :: t else (c :: h) :: t

/-- Python `s.split(";")`. -/
def pySplitSemi (s : String) : List String :=
  (splitSemiChars s.data).map (fun cs => ⟨cs⟩)

/-- The options parser of `options_input`:
`[o.strip() for o in text.split(";") if o.strip()]` — split on `;`, trim
each piece, drop the pieces that are empty after trimming, order
preserved. -/
def parse_options (text : String) : List String :=
  ((pySplitSemi text).map pyStrip).filter (fun o => !o.isEmpty)

/-- The aiogram FSM states of `ScheduleStates`. -/
inductive DialogState where
  | waiting_for_title
  | waiting_for_options
deriving DecidableEq, Repr

/-- The state the free-text dialog handlers act on: the backing storage
file, the live scheduler job list, and the per-user FSM session
(`state.get_state()` / `state.get_data()`); `session_state = none` means
no dialog state is set (cleared session). -/
structure BotState where
  backing : Backing
  jobs : List Job
  session_state : Option DialogState
  session_data : Record
deriving DecidableEq, Repr

/-- Error prompt of `title_input`. -/
def title_error : String := "❗ Название опроса обязательно. Введите название."

/-- The options prompt `title_input` shows on success. -/
def options_prompt : String :=
  "📝 Введите варианты опроса через ';' (минимум 2).\n\nПример: Да; Нет; Резерв; Резерв, я был(а) в пн; Тренер"

/-- Error prompt of `options_input`. -/
def options_error : String := "❗ Нужно минимум 2 варианта. Введите снова через ';'"

/-- `title_input(message, state)` (handler for `waiting_for_title`):
strip the text (`message.text or ""`); if it is empty or the single dash
`"-"`, re-prompt and change nothing; otherwise store `poll_title` in the
session data, move to `waiting_for_options` and show the options prompt
(the message-edit fallback `try/except` only affects transport, not
state).  The returned list holds the texts sent/edited in response. -/
def title_input (text : Option String) (st : BotState) : BotState × List String :=
  let poll_title := pyStrip (text.getD "")
  if poll_title = "" ∨ poll_title = "-" then
    (st, [title_error])
  else
    ({ st with
        session_data := dictInsert st.session_data "poll_title" (.str poll_title),
        session_state := some .waiting_for_options },
     [options_prompt])

/-- `{:02d}` formatting of the stored hour/minute. -/
def two_digit (n : Int) : String :=
  if 0 ≤ n ∧ n < 10 then "0" ++ toString n else toString n

/-- `options_input(message, state)` (handler for `waiting_for_options`):
parse the options; with fewer than 2, re-prompt and change nothing.
Otherwise derive `schedule_id = f"{data['send_day']}_{data['poll_day']}"`,
build the record `{"id": schedule_id, **data, "options": options}`,
run `update_config` (which saves the file and rebuilds the scheduler),
format the confirmation summary, and clear the session
(`state.clear()`).  `none` models an uncaught `KeyError`/`TypeError` on
the session-data accesses. -/
def options_input (text : Option String) (st : BotState) : Option (BotState × List String) :=
  let options := parse_options (text.getD "")
  if options.length < 2 then
    some (st, [options_error])
  else
    match dictGet st.session_data "send_day", dictGet st.session_data "poll_day" with
    | some sd, some pd =>
      let schedule_id := sd.fmt ++ "_" ++ pd.fmt
      let record :=
        dictInsert (dictMerge [("id", Value.str schedule_id)] st.session_data)
          "options" (Value.strList options)
      match update_config schedule_id (some record) st.backing st.jobs with
      | some (backing, jobs) =>
        match getIntVal st.session_data "hour", getIntVal st.session_data "minute" with
        | some h, some m =>
          let send_day_name :=
            match sd with
            | .str s => (dayName s).getD s
            | v => v.fmt
          some (⟨backing, jobs, none, []⟩,
            ["✅ Задание создано: новый опрос добавлен для группы SH Сквош Здоровье!\n\n📅 День тренировки: "
              ++ pd.fmt ++ "\n📤 День отправки: " ++ send_day_name
              ++ "\n⏰ Время отправки: " ++ two_digit h ++ ":" ++ two_digit m ++ "\n"])
        | _, _ => none
      | none => none
    | _, _ => none

/-! ### Derived accessors and well-formedness

`recWF` states that a stored record carries the fields `setup_scheduler`
indexes (`id`, `send_day`, `poll_day`) and integer `hour`/`minute` — the
spec's record invariant.  The `…Of` accessors name the fields of a
well-formed record (the `getD` defaults are never reached under
`recWF`). -/

/-- Record fields needed by the scheduler rebuild are present (with
integer hour/minute). -/
def recWF (s : Record) : Bool :=
  (dictGet s "id").isSome && (dictGet s "send_day").isSome &&
  (getIntVal s "hour").isSome && (getIntVal s "minute").isSome &&
  (dictGet s "poll_day").isSome

/-- `f"{s['id']}"`. -/
def rid (s : Record) : String := ((dictGet s "id").getD (.str "")).fmt

/-- `s["send_day"]`. -/
def sendDayOf (s : Record) : Value := (dictGet s "send_day").getD (.str "")

/-- `s["hour"]` as an integer. -/
def hourOf (s : Record) : Int := (getIntVal s "hour").getD 0

/-- `s["minute"]` as an integer. -/
def minuteOf (s : Record) : Int := (getIntVal s "minute").getD 0

/-- `s["poll_day"]`. -/
def pollDayOf (s : Record) : Value := (dictGet s "poll_day").getD (.str "")

/-- The poll job `setup_scheduler` adds for record `s`. -/
def pollJobOf (s : Record) : Job :=
  ⟨"poll_" ++ rid s, sendDayOf s, .int (hourOf s), .int (minuteOf s),
   .sendPoll (pollDayOf s) (pyOr (dictGet s "options") (dictGet s "extra_options"))
     (dictGet s "poll_title")⟩

/-- The reminder job `setup_scheduler` adds for record `s`. -/
def remJobOf (s : Record) : Job :=
  ⟨"rem_" ++ rid s, sendDayOf s,
   .int (calculate_reminder (hourOf s) (minuteOf s)).1,
   .int (calculate_reminder (hourOf s) (minuteOf s)).2, .sendReminder⟩

/-- The job list a rebuild produces from a record list, two jobs per
record in order. -/
def pairJobs (recs : List Record) : List Job :=
  recs.flatMap (fun s => [pollJobOf s, remJobOf s])

/-- The FSM session data accumulated by a full dialog run
(`choose_time` stores the first six keys in order, `title_input` adds
`poll_title`). -/
def dataShape (a b : String) (h m c em : Int) (t : String) : Record :=
  [("send_day", .str a), ("poll_day", .str b), ("hour", .int h), ("minute", .int m),
   ("edit_chat_id", .int c), ("edit_message_id", .int em), ("poll_title", .str t)]

/-- The record `options_input` persists,
`{"id": schedule_id, **data, "options": options}`, for session data of
shape `dataShape`. -/
def commitRec (a b : String) (h m c em : Int) (t : String) (opts : List String) : Record :=
  ("id", .str (a ++ "_" ++ b)) :: dataShape a b h m c em t ++ [("options", .strList opts)]

/-- Concrete schedule record used to instantiate the C1 rebuild theorem. -/
def c1rec : Record :=
  [("id", .str "thu_Пятница"), ("send_day", .str "thu"), ("hour", .int 18),
   ("minute", .int 0), ("poll_day", .str "Пятница"),
   ("poll_title", .str "T"), ("options", .strList ["Да", "Нет"])]

/-- Concrete schedule record (a 00:02 poll, exercising the midnight
underflow) used to instantiate the C6 reminder-day theorem. -/
def c6rec : Record :=
  [("id", .str "mon_Среда"), ("send_day", .str "mon"), ("hour", .int 0),
   ("minute", .int 2), ("poll_day", .str "Среда")]

/-- Concrete records used to instantiate the C3 round-trip theorem: two
records under the id `thu_Сб` (second commit wins) against a store
holding one unrelated record. -/
def c3recA : Record :=
  [("id", .str "thu_Сб"), ("send_day", .str "thu"), ("hour", .int 12),
   ("minute", .int 0), ("poll_day", .str "Сб"), ("poll_title", .str "первый")]

/-- Second C3 record, same id, different title. -/
def c3recB : Record :=
  [("id", .str "thu_Сб"), ("send_day", .str "thu"), ("hour", .int 12),
   ("minute", .int 5), ("poll_day", .str "Сб"), ("poll_title", .str "второй")]

/-- Unrelated record already in the store for the C3/C10 witnesses. -/
def c3other : Record :=
  [("id", .str "fri_Вс"), ("send_day", .str "fri"), ("hour", .int 10),
   ("minute", .int 30), ("poll_day", .str "Вс")]

/-- Concrete dialog session in the options-awaiting state (empty store),
used to instantiate the C4 and C8 theorems. -/
def c4st : BotState :=
  ⟨Backing.content ⟨[]⟩, [], some .waiting_for_options,
   dataShape "thu" "Пятница" 18 0 10 20 "T"⟩

/-- Concrete dialog session in the title-awaiting state, used to
instantiate the C4 title-validation theorem. -/
def c4stTitle : BotState :=
  ⟨Backing.content ⟨[]⟩, [], some .waiting_for_title, []⟩

/-! ### Helper lemmas -/

lemma recWF_id {s : Record} (h : recWF s = true) : (dictGet s "id").isSome = true := by
  simp only [recWF, Bool.and_eq_true] at h
  exact h.1.1.1.1

lemma recWF_ne_nil {s : Record} (h : recWF s = true) : s.isEmpty = false := by
  rcases s with _ | ⟨p, rest⟩
  · simp [recWF, dictGet] at h
  · rfl

lemma recordJobs_eq {s : Record} (h : recWF s = true) :
    recordJobs s = some (pollJobOf s, remJobOf s) := by
  simp only [recWF, Bool.and_eq_true, Option.isSome_iff_exists] at h
  obtain ⟨⟨⟨⟨⟨i, hi⟩, ⟨d, hd⟩⟩, ⟨hh, hhh⟩⟩, ⟨mm, hmm⟩⟩, ⟨p, hp⟩⟩ := h
  simp [recordJobs, hi, hd, hhh, hmm, hp, pollJobOf, remJobOf, rid, sendDayOf,
    hourOf, minuteOf, pollDayOf]

lemma string_append_left_cancel {p a b : String} (h : p ++ a = p ++ b) : a = b := by
  apply String.ext
  have hd := congrArg String.data h
  rw [String.data_append, String.data_append] at hd
  exact List.append_cancel_left hd

lemma poll_ne_rem (a b : String) : "poll_" ++ a ≠ "rem_" ++ b := by
  intro h
  have hd := congrArg String.data h
  rw [String.data_append, String.data_append] at hd
  have h1 : ("poll_" : String).data = ['p', 'o', 'l', 'l', '_'] := rfl
  have h2 : ("rem_" : String).data = ['r', 'e', 'm', '_'] := rfl
  rw [h1, h2] at hd
  simp only [List.cons_append] at hd
  injection hd with h3 _
  exact absurd h3 (by decide)

lemma pairJobs_map_jid (recs : List Record) :
    (pairJobs recs).map Job.jid =
      recs.flatMap (fun s => ["poll_" ++ rid s, "rem_" ++ rid s]) := by
  induction recs with
  | nil => rfl
  | cons s rest ih =>
    simp only [pairJobs] at ih ⊢
    rw [List.flatMap_cons, List.flatMap_cons, List.map_append, ih]
    rfl

lemma pairJobs_jid_nodup {recs : List Record} (h : (recs.map rid).Nodup) :
    ((pairJobs recs).map Job.jid).Nodup := by
  rw [pairJobs_map_jid]
  induction recs with
  | nil => simp
  | cons s rest ih =>
    rw [List.map_cons, List.nodup_cons] at h
    obtain ⟨hn, hrest⟩ := h
    rw [List.flatMap_cons, List.cons_append, List.cons_append, List.nil_append,
      List.nodup_cons, List.nodup_cons]
    refine ⟨?_, ?_, ih hrest⟩
    · intro hmem
      rcases List.mem_cons.mp hmem with heq | hmem2
      · exact poll_ne_rem (rid s) (rid s) heq
      · obtain ⟨t, ht, hval⟩ := List.mem_flatMap.mp hmem2
        rcases List.mem_cons.mp hval with heq | hval2
        · exact hn (string_append_left_cancel heq ▸ List.mem_map_of_mem rid ht)
        · rcases List.mem_cons.mp hval2 with heq | hval3
          · exact poll_ne_rem (rid s) (rid t) heq
          · simp at hval3
    · intro hmem
      obtain ⟨t, ht, hval⟩ := List.mem_flatMap.mp hmem
      rcases List.mem_cons.mp hval with heq | hval2
      · exact poll_ne_rem (rid t) (rid s) heq.symm
      · rcases List.mem_cons.mp hval2 with heq | hval3
        · exact hn (string_append_left_cancel heq ▸ List.mem_map_of_mem rid ht)
        · simp at hval3

lemma add_job_fresh {jobs : List Job} {j : Job} (h : ∀ x ∈ jobs, x.jid ≠ j.jid) :
    add_job jobs j = jobs ++ [j] := by
  rw [add_job, if_neg]
  simp only [List.any_eq_true, decide_eq_true_eq, not_exists, not_and]
  simpa using h

lemma schedLoop_append (recs : List Record) :
    ∀ (jobs : List Job), (∀ s ∈ recs, recWF s = true) →
      (jobs.map Job.jid ++ (pairJobs recs).map Job.jid).Nodup →
      schedLoop recs jobs = some (jobs ++ pairJobs recs) := by
  induction recs with
  | nil => intro jobs _ _; simp [schedLoop, pairJobs]
  | cons s rest ih =>
    intro jobs hwf hnd
    have hpair : pairJobs (s :: rest) = pollJobOf s :: remJobOf s :: pairJobs rest := by
      simp [pairJobs, List.flatMap_cons]
    rw [hpair, List.map_cons, List.map_cons] at hnd
    rw [List.nodup_append] at hnd
    obtain ⟨hJ, hR, hdisj⟩ := hnd
    have hpns : (pollJobOf s).jid ∉ jobs.map Job.jid := fun hx =>
      hdisj hx (List.mem_cons_self _ _)
    have hrns : (remJobOf s).jid ∉ jobs.map Job.jid := fun hx =>
      hdisj hx (List.mem_cons_of_mem _ (List.mem_cons_self _ _))
    have hpr : (pollJobOf s).jid ≠ (remJobOf s).jid :=
      fun he => (List.nodup_cons.mp hR).1 (he ▸ List.mem_cons_self _ _)
    have step : schedLoop (s :: rest) jobs =
        schedLoop rest (add_job (add_job jobs (pollJobOf s)) (remJobOf s)) := by
      simp [schedLoop, recordJobs_eq (hwf s (List.mem_cons_self _ _))]
    rw [step]
    have ha1 : add_job jobs (pollJobOf s) = jobs ++ [pollJobOf s] :=
      add_job_fresh (fun x hx he => hpns (he ▸ List.mem_map_of_mem Job.jid hx))
    have ha2 : add_job (jobs ++ [pollJobOf s]) (remJobOf s) =
        (jobs ++ [pollJobOf s]) ++ [remJobOf s] := by
      refine add_job_fresh ?_
      intro x hx he
      rcases List.mem_append.mp hx with hx1 | hx2
      · exact hrns (he ▸ List.mem_map_of_mem Job.jid hx1)
      · simp only [List.mem_singleton] at hx2
        exact hpr (hx2 ▸ he)
    rw [ha1, ha2]
    have hres := ih ((jobs ++ [pollJobOf s]) ++ [remJobOf s])
      (fun t ht => hwf t (List.mem_cons_of_mem _ ht)) ?_
    · rw [hres, hpair]
      simp
    · simp only [List.map_append, List.map_cons, List.map_nil]
      have : ((jobs.map Job.jid ++ [(pollJobOf s).jid]) ++ [(remJobOf s).jid]) ++
          (pairJobs rest).map Job.jid =
          jobs.map Job.jid ++
            ((pollJobOf s).jid :: (remJobOf s).jid :: (pairJobs rest).map Job.jid) := by
        simp
      rw [this, List.nodup_append]
      exact ⟨hJ, hR, hdisj⟩

lemma filter_by_key {α β : Type _} [DecidableEq β] (f : α → β) :
    ∀ (l : List α) (x : α), x ∈ l → (l.map f).Nodup →
      l.filter (fun y => decide (f y = f x)) = [x] := by
  intro l
  induction l with
  | nil => intro x hx _; simp at hx
  | cons a t ih =>
    intro x hx hnd
    rw [List.map_cons, List.nodup_cons] at hnd
    obtain ⟨ha, ht⟩ := hnd
    rcases List.mem_cons.mp hx with rfl | hxt
    · rw [List.filter_cons_of_pos (by simp)]
      have hnil : t.filter (fun y => decide (f y = f x)) = [] := by
        rw [List.filter_eq_nil_iff]
        intro y hy
        simp only [decide_eq_true_eq]
        intro he
        exact ha (he ▸ List.mem_map_of_mem f hy)
      rw [hnil]
    · have hne : f a ≠ f x := fun he => ha (he ▸ List.mem_map_of_mem f hxt)
      rw [List.filter_cons_of_neg (by simp [hne]), ih x hxt ht]

lemma filterOutId_eq (sid : String) :
    ∀ (l : List Record), (∀ s ∈ l, (dictGet s "id").isSome = true) →
      filterOutId sid l =
        some (l.filter (fun s => !(decide (dictGet s "id" = some (Value.str sid))))) := by
  intro l
  induction l with
  | nil => intro _; rfl
  | cons s rest ih =>
    intro hall
    obtain ⟨v, hv⟩ := Option.isSome_iff_exists.mp (hall s (List.mem_cons_self _ _))
    have htail := ih (fun t ht => hall t (List.mem_cons_of_mem _ ht))
    by_cases hvs : v = Value.str sid
    · subst hvs
      simp [filterOutId, hv, htail, List.filter_cons]
    · simp [filterOutId, hv, htail, List.filter_cons, hvs]

lemma schedLoop_isSome :
    ∀ (recs : List Record) (jobs : List Job), (∀ s ∈ recs, recWF s = true) →
      ∃ js, schedLoop recs jobs = some js := by
  intro recs
  induction recs with
  | nil => intro jobs _; exact ⟨jobs, rfl⟩
  | cons s rest ih =>
    intro jobs hwf
    have hstep : schedLoop (s :: rest) jobs =
        schedLoop rest (add_job (add_job jobs (pollJobOf s)) (remJobOf s)) := by
      simp [schedLoop, recordJobs_eq (hwf s (List.mem_cons_self _ _))]
    rw [hstep]
    exact ih _ (fun t ht => hwf t (List.mem_cons_of_mem _ ht))

lemma update_config_spec (sid : String) (data : Option Record) (backing : Backing)
    (jobs : List Job)
    (hall : ∀ s ∈ (load_config backing).schedules, recWF s = true)
    (hdata : ∀ r, data = some r → recWF r = true) :
    ∃ newJobs,
      update_config sid data backing jobs =
        some (Backing.content
          ⟨((load_config backing).schedules.filter
              (fun s => !(decide (dictGet s "id" = some (Value.str sid))))) ++
            (match data with | some r => [r] | none => [])⟩, newJobs) := by
  have hfo := filterOutId_eq sid (load_config backing).schedules
    (fun s hs => recWF_id (hall s hs))
  set filtered := (load_config backing).schedules.filter
    (fun s => !(decide (dictGet s "id" = some (Value.str sid)))) with hfdef
  have hfwf : ∀ s ∈ filtered, recWF s = true :=
    fun s hs => hall s (List.mem_filter.mp hs).1
  rcases data with _ | r
  · obtain ⟨js, hjs⟩ := schedLoop_isSome filtered [] hfwf
    refine ⟨js, ?_⟩
    simp only [update_config]
    rw [hfo]
    simp [setup_scheduler, load_config, hjs]
  · have hr := hdata r rfl
    obtain ⟨js, hjs⟩ := schedLoop_isSome (filtered ++ [r]) []
      (fun t ht => by
        rcases List.mem_append.mp ht with h1 | h2
        · exact hfwf t h1
        · simp only [List.mem_singleton] at h2; exact h2 ▸ hr)
    refine ⟨js, ?_⟩
    simp only [update_config]
    rw [hfo]
    simp [setup_scheduler, load_config, hjs, recWF_ne_nil hr]

lemma filter_keep_appended (Q : Record → Bool) (L : List Record) (r : Record)
    (hQ : Q r = true) :
    ((L.filter (fun s => !Q s)) ++ [r]).filter Q = [r] := by
  rw [List.filter_append]
  have h1 : (L.filter (fun s => !Q s)).filter Q = [] := by
    rw [List.filter_eq_nil_iff]
    intro a ha
    have h2 := (List.mem_filter.mp ha).2
    simp only [Bool.not_eq_true'] at h2
    simp [h2]
  rw [h1]
  simp [hQ]

/-! ### Claim theorems -/

/-- C2: for every hour `0 ≤ h < 24` and minute `0 ≤ m < 60`,
`calculate_reminder` returns `(h, m - 5)` when `m ≥ 5` and
`((h - 1) mod 24, (m - 5) mod 60)` when `m < 5`; in particular
`(0, 2) ↦ (23, 57)` and `(18, 0) ↦ (17, 55)`. -/
theorem C2_calculate_reminder (h m : Int) (hh0 : 0 ≤ h) (hh : h < 24)
    (hm0 : 0 ≤ m) (hm : m < 60) :
    (5 ≤ m → calculate_reminder h m = (h, m - 5)) ∧
    (m < 5 → calculate_reminder h m = ((h - 1) % 24, (m - 5) % 60)) ∧
    calculate_reminder 0 2 = (23, 57) ∧ calculate_reminder 18 0 = (17, 55) := by
  refine ⟨?_, ?_, by decide, by decide⟩
  · intro h5
    simp only [calculate_reminder, if_neg (by omega : ¬ m < 5)]
    rw [Prod.mk.injEq]
    exact ⟨by omega, by omega⟩
  · intro h5
    simp only [calculate_reminder, if_pos h5]

/-- Witness for C2, at `(h, m) = (18, 0)`. -/
theorem C2_calculate_reminder_witness :
    ((0 : Int) ≤ 18) ∧ ((18 : Int) < 24) ∧ ((0 : Int) ≤ 0) ∧ ((0 : Int) < 60) ∧
    ((5 ≤ (0 : Int) → calculate_reminder 18 0 = (18, 0 - 5)) ∧
     ((0 : Int) < 5 → calculate_reminder 18 0 = ((18 - 1) % 24, (0 - 5) % 60)) ∧
     calculate_reminder 0 2 = (23, 57) ∧ calculate_reminder 18 0 = (17, 55)) :=
  ⟨by decide, by decide, by decide, by decide,
   C2_calculate_reminder 18 0 (by decide) (by decide) (by decide) (by decide)⟩

/-- C5: when the storage file is missing, unreadable (`OSError`) or holds
content the JSON decoder rejects, `load_config` returns the empty
configuration (without raising: the function is total on these cases),
and the subsequent `setup_scheduler` rebuild yields zero jobs. -/
theorem C5_corrupt_storage_empty (prev : List Job) :
    (load_config .missing = EMPTY_CONFIG ∧
      setup_scheduler prev .missing = some []) ∧
    (load_config .osError = EMPTY_CONFIG ∧
      setup_scheduler prev .osError = some []) ∧
    (load_config .decodeError = EMPTY_CONFIG ∧
      setup_scheduler prev .decodeError = some []) :=
  ⟨⟨rfl, rfl⟩, ⟨rfl, rfl⟩, ⟨rfl, rfl⟩⟩

/-- C7 counterexample: an event whose sender's user id is `0` — an id not
in the allow-list `[1]` — reaches the handler instead of being denied,
because `if user_id and user_id not in ALLOWED_USER_IDS` treats the
falsy integer `0` like a missing user.  So the claim as stated (every
event whose sender id is outside the allow-list is denied) fails. -/
theorem C7_access_counterexample :
    access_middleware (some 0) [1] = MwResult.handled ∧
    (0 : Int) ∉ ([1] : List Int) := by decide

/-- C7 (amended): every inbound event whose sender's user id is present
and nonzero and not in the allow-list is denied before any handler runs:
the middleware returns without invoking the handler (so no store,
session or scheduler mutation can occur) and answers with the fixed
denial message. -/
theorem C7_access_denial (uid : Int) (allowed : List Int)
    (h0 : uid ≠ 0) (hmem : uid ∉ allowed) :
    access_middleware (some uid) allowed = .denied ACCESS_DENIED_TEXT := by
  simp [access_middleware, h0, hmem]

/-- Witness for C7 (amended), at user id 5 and allow-list `[1]`. -/
theorem C7_access_denial_witness :
    ((5 : Int) ≠ 0) ∧ ((5 : Int) ∉ ([1] : List Int)) ∧
    access_middleware (some 5) [1] = .denied ACCESS_DENIED_TEXT :=
  ⟨by decide, by decide, C7_access_denial 5 [1] (by decide) (by decide)⟩

/-- C9 counterexample: a call with a present-but-empty title sends the
generated fallback question, not the given (empty) title — `question =
poll_title or fallback` falls back on any falsy title, so "question
equal to the given title" fails for `poll_title = ""`. -/
theorem C9_poll_send_counterexample :
    send_squash_poll 1 "пятница" (some ["Да", "Нет"]) (some "") =
      .sent 1 (squash_fallback "пятница") ["Да", "Нет"] false ∧
    squash_fallback "пятница" ≠ "" := by decide

/-- C9 (amended): a call with an absent options sequence or fewer than 2
options sends nothing (the function takes the logged-warning branch,
modelled by `.skipped`); a call with at least 2 options sends a
non-anonymous poll to the configured destination whose question is the
given title, or the generated fallback derived from the poll-day label
when the title is absent **or empty**. -/
theorem C9_poll_send_guard :
    (∀ (g : Int) (d : String) (t : Option String),
      send_squash_poll g d none t = .skipped) ∧
    (∀ (g : Int) (d : String) (l : List String) (t : Option String),
      l.length < 2 → send_squash_poll g d (some l) t = .skipped) ∧
    (∀ (g : Int) (d : String) (l : List String) (t : String),
      2 ≤ l.length → t ≠ "" →
      send_squash_poll g d (some l) (some t) = .sent g t l false) ∧
    (∀ (g : Int) (d : String) (l : List String),
      2 ≤ l.length →
      send_squash_poll g d (some l) none = .sent g (squash_fallback d) l false) ∧
    (∀ (g : Int) (d : String) (l : List String),
      2 ≤ l.length →
      send_squash_poll g d (some l) (some "") =
        .sent g (squash_fallback d) l false) := by
  refine ⟨fun g d t => rfl, ?_, ?_, ?_, ?_⟩
  · intro g d l t hl
    simp only [send_squash_poll]
    rw [if_pos hl]
  · intro g d l t hl ht
    simp only [send_squash_poll]
    rw [if_neg (by omega), if_neg ht]
  · intro g d l hl
    simp only [send_squash_poll]
    rw [if_neg (by omega)]
  · intro g d l hl
    simp only [send_squash_poll]
    rw [if_neg (by omega)]
    simp

/-- Witness for C9 (amended), at concrete option lists and titles. -/
theorem C9_poll_send_guard_witness :
    (["Да"] : List String).length < 2 ∧
    send_squash_poll 7 "дн" (some ["Да"]) none = .skipped ∧
    2 ≤ (["Да", "Нет"] : List String).length ∧ ("T" : String) ≠ "" ∧
    send_squash_poll 7 "дн" (some ["Да", "Нет"]) (some "T") =
      .sent 7 "T" ["Да", "Нет"] false ∧
    send_squash_poll 7 "дн" (some ["Да", "Нет"]) none =
      .sent 7 (squash_fallback "дн") ["Да", "Нет"] false ∧
    send_squash_poll 7 "дн" (some ["Да", "Нет"]) (some "") =
      .sent 7 (squash_fallback "дн") ["Да", "Нет"] false :=
  ⟨by decide, C9_poll_send_guard.2.1 7 "дн" ["Да"] none (by decide),
   by decide, by decide,
   C9_poll_send_guard.2.2.1 7 "дн" ["Да", "Нет"] "T" (by decide) (by decide),
   C9_poll_send_guard.2.2.2.1 7 "дн" ["Да", "Нет"] (by decide),
   C9_poll_send_guard.2.2.2.2 7 "дн" ["Да", "Нет"] (by decide)⟩

/-- C1: after any `setup_scheduler` rebuild of a well-formed store (records
carry the scheduler fields, ids distinct — the spec's store invariant),
the live job set is fully determined by the store: for every record
there is exactly one job with id `poll_<id>` firing weekly at
(`send_day`, `hour`, `minute`) and exactly one with id `rem_<id>` firing
at the derived reminder time on the same weekday; no job lies outside
this set; and rebuilding again from the same store (whatever jobs were
live before) yields the same job list. -/
theorem C1_scheduler_rebuild (cfg : Config) (prev prev2 : List Job)
    (hwf : ∀ s ∈ cfg.schedules, recWF s = true)
    (hnd : (cfg.schedules.map rid).Nodup) :
    ∃ jobs, setup_scheduler prev (Backing.content cfg) = some jobs ∧
      (∀ s ∈ cfg.schedules,
        jobs.filter (fun j => decide (j.jid = "poll_" ++ rid s)) =
          [{ jid := "poll_" ++ rid s, day_of_week := sendDayOf s,
             hour := Value.int (hourOf s), minute := Value.int (minuteOf s),
             action := JobAction.sendPoll (pollDayOf s)
               (pyOr (dictGet s "options") (dictGet s "extra_options"))
               (dictGet s "poll_title") }] ∧
        jobs.filter (fun j => decide (j.jid = "rem_" ++ rid s)) =
          [{ jid := "rem_" ++ rid s, day_of_week := sendDayOf s,
             hour := Value.int (calculate_reminder (hourOf s) (minuteOf s)).1,
             minute := Value.int (calculate_reminder (hourOf s) (minuteOf s)).2,
             action := JobAction.sendReminder }]) ∧
      (∀ j ∈ jobs, ∃ s, s ∈ cfg.schedules ∧ (j = pollJobOf s ∨ j = remJobOf s)) ∧
      setup_scheduler prev2 (Backing.content cfg) = some jobs := by
  have hjn : ((pairJobs cfg.schedules).map Job.jid).Nodup := pairJobs_jid_nodup hnd
  have hset : setup_scheduler prev (Backing.content cfg) =
      some (pairJobs cfg.schedules) := by
    have hl := schedLoop_append cfg.schedules [] hwf (by simpa using hjn)
    simpa [setup_scheduler, load_config] using hl
  refine ⟨pairJobs cfg.schedules, hset, ?_, ?_, hset⟩
  · intro s hs
    constructor
    · have hmem : pollJobOf s ∈ pairJobs cfg.schedules :=
        List.mem_flatMap.mpr ⟨s, hs, List.mem_cons_self _ _⟩
      exact filter_by_key Job.jid (pairJobs cfg.schedules) (pollJobOf s) hmem hjn
    · have hmem : remJobOf s ∈ pairJobs cfg.schedules :=
        List.mem_flatMap.mpr ⟨s, hs, List.mem_cons_of_mem _ (List.mem_cons_self _ _)⟩
      exact filter_by_key Job.jid (pairJobs cfg.schedules) (remJobOf s) hmem hjn
  · intro j hj
    obtain ⟨s, hs, hv⟩ := List.mem_flatMap.mp hj
    exact ⟨s, hs, by simpa using hv⟩

/-- Witness for C1, at a one-record store, with different previous job
lists for the two rebuilds. -/
theorem C1_scheduler_rebuild_witness :
    (∀ s ∈ (⟨[c1rec]⟩ : Config).schedules, recWF s = true) ∧
    ((⟨[c1rec]⟩ : Config).schedules.map rid).Nodup ∧
    (∃ jobs, setup_scheduler [] (Backing.content ⟨[c1rec]⟩) = some jobs ∧
      (∀ s ∈ (⟨[c1rec]⟩ : Config).schedules,
        jobs.filter (fun j => decide (j.jid = "poll_" ++ rid s)) =
          [{ jid := "poll_" ++ rid s, day_of_week := sendDayOf s,
             hour := Value.int (hourOf s), minute := Value.int (minuteOf s),
             action := JobAction.sendPoll (pollDayOf s)
               (pyOr (dictGet s "options") (dictGet s "extra_options"))
               (dictGet s "poll_title") }] ∧
        jobs.filter (fun j => decide (j.jid = "rem_" ++ rid s)) =
          [{ jid := "rem_" ++ rid s, day_of_week := sendDayOf s,
             hour := Value.int (calculate_reminder (hourOf s) (minuteOf s)).1,
             minute := Value.int (calculate_reminder (hourOf s) (minuteOf s)).2,
             action := JobAction.sendReminder }]) ∧
      (∀ j ∈ jobs, ∃ s, s ∈ (⟨[c1rec]⟩ : Config).schedules ∧
        (j = pollJobOf s ∨ j = remJobOf s)) ∧
      setup_scheduler [remJobOf c1rec] (Backing.content ⟨[c1rec]⟩) = some jobs) :=
  ⟨by decide, by decide,
   C1_scheduler_rebuild ⟨[c1rec]⟩ [] [remJobOf c1rec] (by decide) (by decide)⟩

/-- C6: for every record of a well-formed store, the rebuilt scheduler's
reminder job fires on the same day-of-week as the poll job — the
record's `send_day` — and this holds in particular through the midnight
underflow: for a send hour 0 and minute `m < 5` the reminder time is
`(23, m + 55)` while the day-of-week field is untouched. -/
theorem C6_reminder_same_day (cfg : Config) (prev : List Job)
    (hwf : ∀ s ∈ cfg.schedules, recWF s = true)
    (hnd : (cfg.schedules.map rid).Nodup) :
    ∃ jobs, setup_scheduler prev (Backing.content cfg) = some jobs ∧
      (∀ s ∈ cfg.schedules, ∃ pj rj,
        jobs.filter (fun j => decide (j.jid = "poll_" ++ rid s)) = [pj] ∧
        jobs.filter (fun j => decide (j.jid = "rem_" ++ rid s)) = [rj] ∧
        rj.day_of_week = pj.day_of_week ∧
        pj.day_of_week = sendDayOf s ∧
        rj.hour = Value.int (calculate_reminder (hourOf s) (minuteOf s)).1 ∧
        rj.minute = Value.int (calculate_reminder (hourOf s) (minuteOf s)).2) ∧
      (∀ m : Int, 0 ≤ m → m < 5 → calculate_reminder 0 m = (23, m + 55)) := by
  have hjn : ((pairJobs cfg.schedules).map Job.jid).Nodup := pairJobs_jid_nodup hnd
  have hset : setup_scheduler prev (Backing.content cfg) =
      some (pairJobs cfg.schedules) := by
    have hl := schedLoop_append cfg.schedules [] hwf (by simpa using hjn)
    simpa [setup_scheduler, load_config] using hl
  refine ⟨pairJobs cfg.schedules, hset, ?_, ?_⟩
  · intro s hs
    refine ⟨pollJobOf s, remJobOf s, ?_, ?_, rfl, rfl, rfl, rfl⟩
    · have hmem : pollJobOf s ∈ pairJobs cfg.schedules :=
        List.mem_flatMap.mpr ⟨s, hs, List.mem_cons_self _ _⟩
      exact filter_by_key Job.jid (pairJobs cfg.schedules) (pollJobOf s) hmem hjn
    · have hmem : remJobOf s ∈ pairJobs cfg.schedules :=
        List.mem_flatMap.mpr ⟨s, hs, List.mem_cons_of_mem _ (List.mem_cons_self _ _)⟩
      exact filter_by_key Job.jid (pairJobs cfg.schedules) (remJobOf s) hmem hjn
  · intro m h0 h5
    simp only [calculate_reminder, if_pos h5]
    rw [Prod.mk.injEq]
    exact ⟨by omega, by omega⟩

/-- Witness for C6, at a one-record store whose poll fires at 00:02. -/
theorem C6_reminder_same_day_witness :
    (∀ s ∈ (⟨[c6rec]⟩ : Config).schedules, recWF s = true) ∧
    ((⟨[c6rec]⟩ : Config).schedules.map rid).Nodup ∧
    (∃ jobs, setup_scheduler [] (Backing.content ⟨[c6rec]⟩) = some jobs ∧
      (∀ s ∈ (⟨[c6rec]⟩ : Config).schedules, ∃ pj rj,
        jobs.filter (fun j => decide (j.jid = "poll_" ++ rid s)) = [pj] ∧
        jobs.filter (fun j => decide (j.jid = "rem_" ++ rid s)) = [rj] ∧
        rj.day_of_week = pj.day_of_week ∧
        pj.day_of_week = sendDayOf s ∧
        rj.hour = Value.int (calculate_reminder (hourOf s) (minuteOf s)).1 ∧
        rj.minute = Value.int (calculate_reminder (hourOf s) (minuteOf s)).2) ∧
      (∀ m : Int, 0 ≤ m → m < 5 → calculate_reminder 0 m = (23, m + 55))) :=
  ⟨by decide, by decide, C6_reminder_same_day ⟨[c6rec]⟩ [] (by decide) (by decide)⟩

/-- C3: store round-trip over a well-formed store.  `update_config(id, r)`
(with `r` carrying identifier `id`) followed by a load yields exactly one
record under `id`, equal to `r` field-for-field; committing again under
the same id with a second record `r2` leaves exactly one record under the
id, equal to `r2` (second commit wins); and `update_config(id, None)`
followed by a load yields no record with that id. -/
theorem C3_store_roundtrip (sid : String) (r r2 : Record) (backing : Backing)
    (jobs : List Job)
    (hall : ∀ s ∈ (load_config backing).schedules, recWF s = true)
    (hr : recWF r = true) (hrid : dictGet r "id" = some (.str sid))
    (hr2 : recWF r2 = true) (hrid2 : dictGet r2 "id" = some (.str sid)) :
    (∃ b1 j1, update_config sid (some r) backing jobs = some (b1, j1) ∧
      (load_config b1).schedules.filter
        (fun s => decide (dictGet s "id" = some (Value.str sid))) = [r] ∧
      (∃ b2 j2, update_config sid (some r2) b1 j1 = some (b2, j2) ∧
        (load_config b2).schedules.filter
          (fun s => decide (dictGet s "id" = some (Value.str sid))) = [r2])) ∧
    (∃ b0 j0, update_config sid none backing jobs = some (b0, j0) ∧
      ∀ s ∈ (load_config b0).schedules, dictGet s "id" ≠ some (Value.str sid)) := by
  obtain ⟨j1, h1⟩ := update_config_spec sid (some r) backing jobs hall
    (fun x hx => by cases hx; exact hr)
  constructor
  · refine ⟨_, j1, h1, ?_, ?_⟩
    · show (((load_config backing).schedules.filter
          (fun s => !(decide (dictGet s "id" = some (Value.str sid))))) ++ [r]).filter
            (fun s => decide (dictGet s "id" = some (Value.str sid))) = [r]
      exact filter_keep_appended _ _ r (by simp [hrid])
    · have hall1 : ∀ s ∈ (load_config (Backing.content
          ⟨((load_config backing).schedules.filter
              (fun s => !(decide (dictGet s "id" = some (Value.str sid))))) ++ [r]⟩)).schedules,
          recWF s = true := by
        intro s hs
        rcases List.mem_append.mp hs with hsf | hsr
        · exact hall s (List.mem_filter.mp hsf).1
        · simp only [List.mem_singleton] at hsr
          exact hsr ▸ hr
      obtain ⟨j2, h2⟩ := update_config_spec sid (some r2) _ j1 hall1
        (fun x hx => by cases hx; exact hr2)
      refine ⟨_, j2, h2, ?_⟩
      exact filter_keep_appended _ _ r2 (by simp [hrid2])
  · obtain ⟨j0, h0⟩ := update_config_spec sid none backing jobs hall
      (fun x hx => nomatch hx)
    refine ⟨_, j0, h0, ?_⟩
    intro s hs
    have hs2 : s ∈ ((load_config backing).schedules.filter
        (fun s => !(decide (dictGet s "id" = some (Value.str sid))))) ++ [] := hs
    rw [List.append_nil] at hs2
    have h3 := (List.mem_filter.mp hs2).2
    simp only [Bool.not_eq_true', decide_eq_false_iff_not] at h3
    exact h3

/-- Witness for C3, at id `thu_Сб`, the two concrete records `c3recA`,
`c3recB` and a store holding the unrelated `c3other`. -/
theorem C3_store_roundtrip_witness :
    (∀ s ∈ (load_config (Backing.content ⟨[c3other]⟩)).schedules, recWF s = true) ∧
    recWF c3recA = true ∧ dictGet c3recA "id" = some (.str "thu_Сб") ∧
    recWF c3recB = true ∧ dictGet c3recB "id" = some (.str "thu_Сб") ∧
    ((∃ b1 j1, update_config "thu_Сб" (some c3recA) (Backing.content ⟨[c3other]⟩) []
        = some (b1, j1) ∧
      (load_config b1).schedules.filter
        (fun s => decide (dictGet s "id" = some (Value.str "thu_Сб"))) = [c3recA] ∧
      (∃ b2 j2, update_config "thu_Сб" (some c3recB) b1 j1 = some (b2, j2) ∧
        (load_config b2).schedules.filter
          (fun s => decide (dictGet s "id" = some (Value.str "thu_Сб"))) = [c3recB])) ∧
    (∃ b0 j0, update_config "thu_Сб" none (Backing.content ⟨[c3other]⟩) []
        = some (b0, j0) ∧
      ∀ s ∈ (load_config b0).schedules,
        dictGet s "id" ≠ some (Value.str "thu_Сб"))) :=
  ⟨by decide, by decide, by decide, by decide, by decide,
   C3_store_roundtrip "thu_Сб" c3recA c3recB (Backing.content ⟨[c3other]⟩) []
     (by decide) (by decide) (by decide) (by decide) (by decide)⟩

/-- C10: frame property of the store mutation over a well-formed store.
`update_config(id, x)` keeps every record whose identifier differs from
`id` unchanged field-for-field and in its original relative order (the
resulting collection is literally the order-preserving filter of the old
one), and appends the provided record, when any, at the end. -/
theorem C10_update_frame (sid : String) (backing : Backing) (jobs : List Job)
    (hall : ∀ s ∈ (load_config backing).schedules, recWF s = true) :
    (∃ b0 j0, update_config sid none backing jobs = some (b0, j0) ∧
      (load_config b0).schedules =
        (load_config backing).schedules.filter
          (fun s => !(decide (dictGet s "id" = some (Value.str sid))))) ∧
    (∀ r, recWF r = true →
      ∃ b1 j1, update_config sid (some r) backing jobs = some (b1, j1) ∧
        (load_config b1).schedules =
          (load_config backing).schedules.filter
            (fun s => !(decide (dictGet s "id" = some (Value.str sid)))) ++ [r]) := by
  constructor
  · obtain ⟨j0, h0⟩ := update_config_spec sid none backing jobs hall
      (fun x hx => nomatch hx)
    exact ⟨_, j0, h0, List.append_nil _⟩
  · intro r hr
    obtain ⟨j1, h1⟩ := update_config_spec sid (some r) backing jobs hall
      (fun x hx => by cases hx; exact hr)
    exact ⟨_, j1, h1, rfl⟩

/-- Witness for C10, deleting and inserting under id `thu_Сб` against a
store holding `c3other` and `c3recA`. -/
theorem C10_update_frame_witness :
    (∀ s ∈ (load_config (Backing.content ⟨[c3other, c3recA]⟩)).schedules,
      recWF s = true) ∧
    ((∃ b0 j0, update_config "thu_Сб" none (Backing.content ⟨[c3other, c3recA]⟩) []
        = some (b0, j0) ∧
      (load_config b0).schedules =
        (load_config (Backing.content ⟨[c3other, c3recA]⟩)).schedules.filter
          (fun s => !(decide (dictGet s "id" = some (Value.str "thu_Сб"))))) ∧
    (∀ r, recWF r = true →
      ∃ b1 j1, update_config "thu_Сб" (some r)
          (Backing.content ⟨[c3other, c3recA]⟩) [] = some (b1, j1) ∧
        (load_config b1).schedules =
          (load_config (Backing.content ⟨[c3other, c3recA]⟩)).schedules.filter
            (fun s => !(decide (dictGet s "id" = some (Value.str "thu_Сб")))) ++ [r])) :=
  ⟨by decide,
   C10_update_frame "thu_Сб" (Backing.content ⟨[c3other, c3recA]⟩) [] (by decide)⟩

lemma options_input_commit (a b : String) (h m c em : Int) (t : String)
    (text : Option String) (st : BotState)
    (hsess : st.session_data = dataShape a b h m c em t)
    (hlen : 2 ≤ (parse_options (text.getD "")).length)
    (hall : ∀ s ∈ (load_config st.backing).schedules, recWF s = true) :
    ∃ jobs, options_input text st =
      some (⟨Backing.content
          ⟨((load_config st.backing).schedules.filter
              (fun s => !(decide (dictGet s "id" = some (Value.str (a ++ "_" ++ b)))))) ++
            [commitRec a b h m c em t (parse_options (text.getD ""))]⟩,
        jobs, none, []⟩,
        ["✅ Задание создано: новый опрос добавлен для группы SH Сквош Здоровье!\n\n📅 День тренировки: "
          ++ b ++ "\n📤 День отправки: " ++ ((dayName a).getD a)
          ++ "\n⏰ Время отправки: " ++ two_digit h ++ ":" ++ two_digit m ++ "\n"]) := by
  have hsd : dictGet (dataShape a b h m c em t) "send_day" = some (.str a) := rfl
  have hpd : dictGet (dataShape a b h m c em t) "poll_day" = some (.str b) := rfl
  have hhour : getIntVal (dataShape a b h m c em t) "hour" = some h := rfl
  have hmin : getIntVal (dataShape a b h m c em t) "minute" = some m := rfl
  have hrec : dictInsert (dictMerge [("id", Value.str (a ++ "_" ++ b))]
      (dataShape a b h m c em t)) "options"
      (Value.strList (parse_options (text.getD ""))) =
      commitRec a b h m c em t (parse_options (text.getD "")) := rfl
  have hcwf : recWF (commitRec a b h m c em t (parse_options (text.getD ""))) = true := rfl
  obtain ⟨nj, hup⟩ := update_config_spec (a ++ "_" ++ b)
    (some (commitRec a b h m c em t (parse_options (text.getD ""))))
    st.backing st.jobs hall (fun x hx => by cases hx; exact hcwf)
  refine ⟨nj, ?_⟩
  simp only [options_input, hsess, hsd, hpd, hhour, hmin, Value.fmt]
  rw [if_neg (by omega : ¬ (parse_options (text.getD "")).length < 2)]
  rw [hrec, hup]

/-- C4: dialog free-text validation.  A title that is empty after
trimming or the single dash re-prompts and leaves the session state, the
accumulated data and the store untouched; an options text parsing to
fewer than 2 options re-prompts likewise; a valid options text commits:
the session is cleared (the `Committed` end of the dialog) and the store
gains a record whose `options` equal the parsed list in order.
Concretely, `"Да; Нет"` parses to `["Да", "Нет"]` and `"Да"` alone fails
the guard. -/
theorem C4_dialog_validation :
    (∀ (text : Option String) (st : BotState),
      st.session_state = some .waiting_for_title →
      (pyStrip (text.getD "") = "" ∨ pyStrip (text.getD "") = "-") →
      title_input text st = (st, [title_error])) ∧
    (∀ (text : Option String) (st : BotState),
      st.session_state = some .waiting_for_options →
      (parse_options (text.getD "")).length < 2 →
      options_input text st = some (st, [options_error])) ∧
    (∀ (a b : String) (h m c em : Int) (t : String) (text : Option String)
        (st : BotState),
      st.session_state = some .waiting_for_options →
      st.session_data = dataShape a b h m c em t →
      2 ≤ (parse_options (text.getD "")).length →
      (∀ s ∈ (load_config st.backing).schedules, recWF s = true) →
      ∃ st2 msgs, options_input text st = some (st2, msgs) ∧
        st2.session_state = none ∧
        ∃ rec, (load_config st2.backing).schedules.filter
            (fun s => decide (dictGet s "id" = some (Value.str (a ++ "_" ++ b)))) = [rec] ∧
          dictGet rec "options" = some (Value.strList (parse_options (text.getD "")))) ∧
    parse_options "Да; Нет" = ["Да", "Нет"] ∧
    (parse_options "Да").length < 2 := by
  refine ⟨?_, ?_, ?_, by decide, by decide⟩
  · intro text st _ hval
    simp only [title_input]
    rw [if_pos hval]
  · intro text st _ hlen
    simp only [options_input]
    rw [if_pos hlen]
  · intro a b h m c em t text st _ hsess hlen hall
    obtain ⟨jobs, heq⟩ := options_input_commit a b h m c em t text st hsess hlen hall
    refine ⟨_, _, heq, rfl, commitRec a b h m c em t (parse_options (text.getD "")),
      ?_, rfl⟩
    show (((load_config st.backing).schedules.filter
        (fun s => !(decide (dictGet s "id" = some (Value.str (a ++ "_" ++ b)))))) ++
        [commitRec a b h m c em t (parse_options (text.getD ""))]).filter
          (fun s => decide (dictGet s "id" = some (Value.str (a ++ "_" ++ b)))) = _
    exact filter_keep_appended _ _ _ (decide_eq_true rfl)

/-- Witness for C4: the dash title self-loops, `"Да"` self-loops in the
options state, and `"Да; Нет"` commits, all at concrete sessions. -/
theorem C4_dialog_validation_witness :
    (c4stTitle.session_state = some .waiting_for_title ∧
      (pyStrip ((some " - ").getD "") = "" ∨ pyStrip ((some " - ").getD "") = "-") ∧
      title_input (some " - ") c4stTitle = (c4stTitle, [title_error])) ∧
    (c4st.session_state = some .waiting_for_options ∧
      (parse_options ((some "Да").getD "")).length < 2 ∧
      options_input (some "Да") c4st = some (c4st, [options_error])) ∧
    (c4st.session_state = some .waiting_for_options ∧
      c4st.session_data = dataShape "thu" "Пятница" 18 0 10 20 "T" ∧
      2 ≤ (parse_options ((some "Да; Нет").getD "")).length ∧
      (∀ s ∈ (load_config c4st.backing).schedules, recWF s = true) ∧
      ∃ st2 msgs, options_input (some "Да; Нет") c4st = some (st2, msgs) ∧
        st2.session_state = none ∧
        ∃ rec, (load_config st2.backing).schedules.filter
            (fun s => decide (dictGet s "id" =
              some (Value.str ("thu" ++ "_" ++ "Пятница")))) = [rec] ∧
          dictGet rec "options" =
            some (Value.strList (parse_options ((some "Да; Нет").getD "")))) :=
  ⟨⟨by decide, by decide,
    C4_dialog_validation.1 (some " - ") c4stTitle (by decide) (by decide)⟩,
   ⟨by decide, by decide,
    C4_dialog_validation.2.1 (some "Да") c4st (by decide) (by decide)⟩,
   by decide, by decide, by decide, by decide,
   C4_dialog_validation.2.2.1 "thu" "Пятница" 18 0 10 20 "T" (some "Да; Нет") c4st
     (by decide) (by decide) (by decide) (by decide)⟩

/-- C8 counterexample: a concrete dialog commit (an empty store, the
canonical session data, options text `"Да; Нет"`) persists a record
whose key list contains `edit_chat_id` and `edit_message_id` — fields
outside the persisted-state layout — because the commit spreads the
whole session dict (`{"id": ..., **data, "options": ...}`).  So the
claim that the record contains *exactly* the layout fields fails. -/
theorem C8_record_fields_counterexample :
    (Option.map (fun p => (load_config p.1.backing).schedules.map (List.map Prod.fst))
      (options_input (some "Да; Нет") c4st)) =
      some [["id", "send_day", "poll_day", "hour", "minute", "edit_chat_id",
             "edit_message_id", "poll_title", "options"]] ∧
    "edit_chat_id" ∉ ["id", "send_day", "poll_day", "hour", "minute",
      "poll_title", "options"] := by decide

/-- C8 (amended): every record persisted at dialog commit contains the
persisted-state layout fields — identifier, send-day code, poll-day
label, hour, minute, title, ordered option list — plus exactly two
further fields carried over from the dialog session, the edit-message
references `edit_chat_id` and `edit_message_id`, and nothing else. -/
theorem C8_record_fields (a b : String) (h m c em : Int) (t : String)
    (text : Option String) (st : BotState)
    (hsess : st.session_data = dataShape a b h m c em t)
    (hlen : 2 ≤ (parse_options (text.getD "")).length)
    (hall : ∀ s ∈ (load_config st.backing).schedules, recWF s = true) :
    ∃ st2 msgs, options_input text st = some (st2, msgs) ∧
      ∃ rec, rec ∈ (load_config st2.backing).schedules ∧
        rec.map Prod.fst =
          ["id", "send_day", "poll_day", "hour", "minute",
           "edit_chat_id", "edit_message_id", "poll_title", "options"] := by
  obtain ⟨jobs, heq⟩ := options_input_commit a b h m c em t text st hsess hlen hall
  refine ⟨_, _, heq, commitRec a b h m c em t (parse_options (text.getD "")), ?_, rfl⟩
  show commitRec a b h m c em t (parse_options (text.getD "")) ∈
    ((load_config st.backing).schedules.filter
        (fun s => !(decide (dictGet s "id" = some (Value.str (a ++ "_" ++ b)))))) ++
      [commitRec a b h m c em t (parse_options (text.getD ""))]
  exact List.mem_append_right _ (List.mem_singleton.mpr rfl)

/-- Witness for C8 (amended), at the concrete session `c4st` and options
text `"Да; Нет"`. -/
theorem C8_record_fields_witness :
    c4st.session_data = dataShape "thu" "Пятница" 18 0 10 20 "T" ∧
    2 ≤ (parse_options ((some "Да; Нет").getD "")).length ∧
    (∀ s ∈ (load_config c4st.backing).schedules, recWF s = true) ∧
    (∃ st2 msgs, options_input (some "Да; Нет") c4st = some (st2, msgs) ∧
      ∃ rec, rec ∈ (load_config st2.backing).schedules ∧
        rec.map Prod.fst =
          ["id", "send_day", "poll_day", "hour", "minute",
           "edit_chat_id", "edit_message_id", "poll_title", "options"]) :=
  ⟨by decide, by decide, by decide,
   C8_record_fields "thu" "Пятница" 18 0 10 20 "T" (some "Да; Нет") c4st
     (by decide) (by decide) (by decide)⟩

end PollBot
